import Mathlib

/-!
Shallow embedding of the dibox dependency-injection container
(src/src/dibox: dimap.py, factory_box.py, instance_box.py, dibox.py).

Python types are modelled by `Ty` (with a distinguished builtin `type`
class and `type[...]` generic-alias values, since `typing.get_origin`
distinguishes them), Python runtime values by `PyVal`, and the ambient
class environment (which types are classes, their constructor signature
and behaviour) by `TyEnv`.  Factories are opaque callables in the source;
their observable behaviour is modelled by `FacBehavior` and every factory
invocation is recorded in an event trace, so that claims about
"the factory is (not) re-invoked" and teardown order are statable.
Python `dict`s keyed by `(type, name)` are modelled as insertion-ordered
association lists (`dictGet`/`dictSet`), matching CPython's ordered dicts
(assignment to an existing key keeps its position).
Keys built from non-type selector junk (e.g. a string selector) are
outside the model and collapse to the `none` type component.
-/

/-- A Python type/annotation value: the builtin `type` itself, a
subscripted alias `type[X]` (whose `typing.get_origin` is `type`), or an
ordinary class/other type object identified by a number. -/
inductive Ty where
  | type
  | tAlias (n : Nat)
  | c (n : Nat)
deriving DecidableEq, Repr

abbrev PName := String

/-- A type query as accepted by `DIMap.find_match` / `FactoryBox.find_binding`:
absent, a single type, or a union (`A | B`, iterated in declared order). -/
inductive TyQuery where
  | noneQ
  | single (t : Ty)
  | union (ts : List Ty)
deriving DecidableEq, Repr

/-- DIMapKey: `tuple[type | None, str | None]`. -/
abbrev IKey := Option Ty × Option PName

/-- Duck-typed lifecycle capabilities an object may expose (presence of
the attributes probed by `_InstanceBox._lookup_method`). -/
structure Caps where
  hasAenter : Bool
  hasStart : Bool
  hasEnter : Bool
  hasAexit : Bool
  hasAclose : Bool
  hasClose : Bool
  hasExit : Bool
deriving DecidableEq, Repr

/-- An object with identity (models `is` reference equality) and
lifecycle capabilities. -/
structure Obj where
  ident : Nat
  caps : Caps
deriving DecidableEq, Repr

/-- A Python runtime value as far as the container observes it. -/
inductive PyVal where
  | none
  | obj (o : Obj)
  | str (s : String)
  | clsVal (t : Ty)
  | pyfunc
deriving DecidableEq, Repr

/-- Observable behaviour of an (opaque) factory callable: return a fresh
object with given capabilities, return a fixed value, or raise. -/
inductive FacBehavior where
  | fresh (caps : Caps)
  | const (v : PyVal)
  | raise (m : String)
deriving DecidableEq, Repr

/-- A parameter annotation: absent (`inspect.Parameter.empty`) or a type
value (which may be `type`, `type[X]`, or an ordinary class). -/
inductive Ann where
  | empty
  | q (t : Ty)
deriving DecidableEq, Repr

/-- One declared parameter of a factory signature. -/
structure Param where
  name : PName
  ann : Ann
  hasDefault : Bool
  isVariadic : Bool
deriving DecidableEq, Repr

/-- BindingRecord: canonical internal form of a binding
(`factory_box.BindingRecord`): which slot the factory occupies, its
observable behaviour, and its introspected signature. -/
structure BindingRecord where
  isAsync : Bool
  behavior : FacBehavior
  sig : List Param
deriving DecidableEq, Repr

/-- What the ambient Python world knows about a type: whether
`inspect.isclass` holds, and its constructor's signature and behaviour
(used by the implicit self-construction fallback). -/
structure TyInfo where
  isClass : Bool
  ctorBehavior : FacBehavior
  ctorSig : List Param

abbrev TyEnv := Ty → TyInfo

/-- `typing.get_origin(x) is type` holds exactly for subscripted
`type[...]` aliases, not for bare `type`. -/
def getOriginIsType : Ty → Bool
  | .tAlias _ => true
  | _ => false

/-- Ordered-dict lookup. -/
def dictGet {κ ν : Type} [DecidableEq κ] : List (κ × ν) → κ → Option ν
  | [], _ => Option.none
  | (k, v) :: rest, k' => if k' = k then some v else dictGet rest k'

/-- Ordered-dict assignment: replaces in place (keeping insertion
position) or appends, like a CPython dict. -/
def dictSet {κ ν : Type} [DecidableEq κ] : List (κ × ν) → κ → ν → List (κ × ν)
  | [], k, v => [(k, v)]
  | (k0, v0) :: rest, k, v =>
      if k = k0 then (k0, v) :: rest else (k0, v0) :: dictSet rest k v

/-- First non-`none` element, as a for-loop with early return computes it. -/
def firstSome {α : Type} : List (Option α) → Option α
  | [] => Option.none
  | x :: rest =>
      match x with
      | some a => some a
      | Option.none => firstSome rest

/-- `dimap._expand_type`: a union query yields its members in declared
order, any other query yields itself. -/
def expandType : TyQuery → List (Option Ty)
  | .noneQ => [Option.none]
  | .single t => [some t]
  | .union ts => ts.map some

/-- `DIMap._find_match`: exact `(cls, name)` entry first; if `name` is
present fall back to `(cls, None)`; if `cls` is present fall back to
`(None, name)`.  `get` abstracts `self.get` (which treats a stored `None`
as absent where the instance store is concerned). -/
def findMatch1 {V : Type} (get : IKey → Option V) (c : Option Ty) (n : Option PName) :
    Option (V × IKey) :=
  match get (c, n) with
  | some v => some (v, (c, n))
  | Option.none =>
    match (if n.isSome then get (c, Option.none) else Option.none) with
    | some v => some (v, (c, Option.none))
    | Option.none =>
      match (if c.isSome then get (Option.none, n) else Option.none) with
      | some v => some (v, (Option.none, n))
      | Option.none => Option.none

/-- `DIMap.find_match`: try `_find_match` on each expanded subtype,
returning the first hit. -/
def findMatchQ {V : Type} (get : IKey → Option V) (T : TyQuery) (n : Option PName) :
    Option (V × IKey) :=
  firstSome ((expandType T).map (fun c => findMatch1 get c n))

/-- Error kinds raised by the container (`TypeError`, `ValueError`,
`KeyError`, an exception escaping a user factory, and exhausted recursion
fuel for the shallow embedding of unbounded recursion). -/
inductive Err where
  | typeErr (m : String)
  | valueErr (m : String)
  | keyErr (m : String)
  | exn (m : String)
  | fuel
deriving DecidableEq, Repr

def noBindingMsg : String := "No binding found"

/-- The binding registry: the exact `(type, name)` map and the ordered
predicate list (`FactoryBox.map` / `FactoryBox.func_matchers`). -/
structure Registry where
  map : List (IKey × BindingRecord)
  preds : List ((Ty → Bool) × BindingRecord)

/-- The predicate for-loop in `FactoryBox.find_binding`: first
registered matcher returning true wins. -/
def firstMatcher : List ((Ty → Bool) × BindingRecord) → Ty → Option BindingRecord
  | [], _ => Option.none
  | (p, r) :: rest, t => if p t then some r else firstMatcher rest t

/-- `_wrap_factory_func(requested_type)` for the implicit
self-construction fallback: the class itself becomes the sync factory,
with its constructor signature. -/
def classRecord (env : TyEnv) (t : Ty) : BindingRecord :=
  { isAsync := false, behavior := (env t).ctorBehavior, sig := (env t).ctorSig }

/-- `FactoryBox.find_binding`: exact map first (with union fan-out);
then, unless the query is absent or a union (which raise), predicates in
registration order; then implicit self-construction for classes. -/
def findBinding (env : TyEnv) (reg : Registry) (T : TyQuery) (N : Option PName) :
    Except Err (BindingRecord × IKey) :=
  match findMatchQ (dictGet reg.map) T N with
  | some m => .ok m
  | Option.none =>
    match T with
    | .noneQ => .error (.valueErr noBindingMsg)
    | .union _ => .error (.valueErr noBindingMsg)
    | .single t =>
      match firstMatcher reg.preds t with
      | some r => .ok (r, (some t, Option.none))
      | Option.none =>
        if (env t).isClass then .ok (classRecord env t, (some t, Option.none))
        else .error (.valueErr noBindingMsg)

/-- An argument value handed to a factory: either the requested type
object (the first-parameter type injection) or a resolved instance. -/
inductive ArgVal where
  | tyArg (q : TyQuery)
  | val (v : PyVal)
deriving DecidableEq, Repr

/-- Observable events: a factory invocation with the arguments the
resolver passed, a startup-method call, a shutdown-method call (with
whether it received the three `None` context-exit arguments). -/
inductive Event where
  | invoke (args : List (PName × ArgVal))
  | started (ident : Nat) (m : String)
  | closed (ident : Nat) (m : String) (threeNones : Bool)
deriving DecidableEq, Repr

/-- Mutable state threaded through the container: the instance store's
ordered items dict, the fresh-object counter, and the event trace. -/
structure St where
  items : List (IKey × PyVal)
  nextId : Nat
  trace : List Event
deriving DecidableEq, Repr

/-- `dict.get` on the items store combined with the callers' uniform
`is not None` test: a stored Python `None` is indistinguishable from an
absent key. -/
def itemsGet (its : List (IKey × PyVal)) (k : IKey) : Option PyVal :=
  match dictGet its k with
  | some v => if v = PyVal.none then Option.none else some v
  | Option.none => Option.none

/-- `_InstanceBox.get_instance`: `find_match` on the items map, taking
the matched value. -/
def getInstance (s : St) (T : TyQuery) (N : Option PName) : Option PyVal :=
  (findMatchQ (itemsGet s.items) T N).map Prod.fst

/-- Attribute presence for the lifecycle method names, from an object's
capabilities. -/
def hasMethod (cs : Caps) (m : String) : Bool :=
  if m = "__aenter__" then cs.hasAenter
  else if m = "start" then cs.hasStart
  else if m = "__enter__" then cs.hasEnter
  else if m = "__aexit__" then cs.hasAexit
  else if m = "aclose" then cs.hasAclose
  else if m = "close" then cs.hasClose
  else if m = "__exit__" then cs.hasExit
  else false

/-- `_InstanceBox._lookup_method`: first present attribute among the
probed names. -/
def lookupMethod (cs : Caps) : List String → Option String
  | [] => Option.none
  | m :: rest => if hasMethod cs m then some m else lookupMethod cs rest

def startMethods : List String := ["__aenter__", "start", "__enter__"]

def closeMethods : List String := ["__aexit__", "aclose", "close", "__exit__"]

/-- Invoke a factory: the invocation is recorded, then the behaviour
produces a value, allocates a fresh object, or raises. -/
def runFactory (s : St) (rec : BindingRecord) (args : List (PName × ArgVal)) :
    Except Err PyVal × St :=
  let s1 : St := { s with trace := s.trace ++ [Event.invoke args] }
  match rec.behavior with
  | .raise m => (.error (.exn m), s1)
  | .const v => (.ok v, s1)
  | .fresh caps => (.ok (.obj ⟨s.nextId, caps⟩), { s1 with nextId := s.nextId + 1 })

/-- The startup probe of `_InstanceBox._start_instance`: call the first
present start capability of the created value. -/
def startInstance (s : St) (v : PyVal) : St :=
  match v with
  | .obj o =>
    match lookupMethod o.caps startMethods with
    | some m => { s with trace := s.trace ++ [Event.started o.ident m] }
    | Option.none => s
  | _ => s

/-- `_InstanceBox.create_instance`: return the cached item if the key
already holds a (non-`None`) value, otherwise invoke the factory, run
its startup capability, and store the result under the key. -/
def storeCreate (s : St) (K : IKey) (rec : BindingRecord) (args : List (PName × ArgVal)) :
    Except Err PyVal × St :=
  match itemsGet s.items K with
  | some v => (.ok v, s)
  | Option.none =>
    match runFactory s rec args with
    | (.error e, s1) => (.error e, s1)
    | (.ok v, s1) =>
      let s2 := startInstance s1 v
      (.ok v, { s2 with items := dictSet s2.items K v })

/-- `_InstanceBox.register_instance`. -/
def registerInstance (s : St) (k : IKey) (v : PyVal) : St :=
  { s with items := dictSet s.items k v }

/-- The `close_method_name.startswith("__")` test: the first two
characters are underscores. -/
def isDunderName (m : String) : Bool :=
  decide (m.data.take 2 = ['_', '_'])

/-- `_InstanceBox._shutdown_instance` folded into the close loop: probe
the close capabilities in fixed order; dunder methods receive the three
`None` arguments. -/
def shutdownStep (tr : List Event) (v : PyVal) : List Event :=
  match v with
  | .obj o =>
    match lookupMethod o.caps closeMethods with
    | some m => tr ++ [Event.closed o.ident m (isDunderName m)]
    | Option.none => tr
  | _ => tr

/-- The `for instance in reversed(self._items.values())` loop body of
`_InstanceBox.close`. -/
def closeLoop : List Event → List PyVal → List Event
  | tr, [] => tr
  | tr, v :: rest => closeLoop (shutdownStep tr v) rest

/-- `_InstanceBox.close`: shut every stored value down, newest first,
then clear the store. -/
def closeStore (s : St) : St :=
  { s with trace := closeLoop s.trace ((s.items.map Prod.snd).reverse), items := [] }

/-- `DIBox._find_factory_bound_arguments`: if the factory's first
declared parameter is unannotated, or its annotation's generic origin is
`type`, bind it eagerly to the requested type itself. -/
def findFactoryBoundArguments (parentType : TyQuery) (sig : List Param) :
    List (PName × ArgVal) :=
  match sig with
  | [] => []
  | p :: _ =>
    match p.ann with
    | .empty => [(p.name, .tyArg parentType)]
    | .q t => if getOriginIsType t then [(p.name, .tyArg parentType)] else []

/-- `DIBox._list_dependencies`: required (no default), non-variadic,
annotated parameters not already bound, with the annotation as the
requested type. -/
def listDependencies (sig : List Param) (ovr : List (PName × ArgVal)) :
    List (PName × TyQuery) :=
  (sig.filter (fun p =>
      !p.hasDefault && !p.isVariadic && (dictGet ovr p.name).isNone &&
        !(p.ann = Ann.empty))).filterMap
    (fun p => match p.ann with
      | .q t => some (p.name, TyQuery.single t)
      | .empty => Option.none)

/-- `dependencies |= args_override`: dict update, overrides win. -/
def mergeArgs (deps ovr : List (PName × ArgVal)) : List (PName × ArgVal) :=
  ovr.foldl (fun acc kv => dictSet acc kv.1 kv.2) deps

/-- The `for arg_name, arg_type in args` loop of
`DIBox._provide_dependencies`, parameterized by the recursive `provide`. -/
def provideDepsWith (pv : St → TyQuery → Option PName → Except Err PyVal × St) :
    St → List (PName × TyQuery) → Except Err (List (PName × ArgVal)) × St
  | s, [] => (.ok [], s)
  | s, (n, q) :: rest =>
    match pv s q (some n) with
    | (.error e, s1) => (.error e, s1)
    | (.ok v, s1) =>
      match provideDepsWith pv s1 rest with
      | (.error e, s2) => (.error e, s2)
      | (.ok vs, s2) => (.ok ((n, ArgVal.val v) :: vs), s2)

/-- `DIBox._create_instance`: find the binding, compute the eager first
argument, resolve the remaining dependencies, then ask the instance
store to create (or return the already-cached) instance under the
matched key. -/
def createInstanceWith (env : TyEnv) (reg : Registry)
    (pv : St → TyQuery → Option PName → Except Err PyVal × St)
    (s : St) (T : TyQuery) (N : Option PName) : Except Err PyVal × St :=
  match findBinding env reg T N with
  | .error e => (.error e, s)
  | .ok (rec, K) =>
    let ovr := findFactoryBoundArguments T rec.sig
    match provideDepsWith pv s (listDependencies rec.sig ovr) with
    | (.error e, s1) => (.error e, s1)
    | (.ok deps, s1) => storeCreate s1 K rec (mergeArgs deps ovr)

/-- `DIBox.provide` with recursion fuel: return the resolved instance if
one is cached, otherwise create it. -/
def provideF (env : TyEnv) (reg : Registry) :
    Nat → St → TyQuery → Option PName → Except Err PyVal × St
  | 0, s, _, _ => (.error .fuel, s)
  | fuel + 1, s, T, N =>
    match getInstance s T N with
    | some v => (.ok v, s)
    | Option.none => createInstanceWith env reg (provideF env reg fuel) s T N

def instanceNotFoundMsg : String := "Instance is not found"

/-- `DIBox.resolve`: synchronous lookup only; raises `KeyError` when no
instance is cached for the request. -/
def resolveF (s : St) (T : TyQuery) (N : Option PName) : Except Err PyVal :=
  match getInstance s T N with
  | some v => .ok v
  | Option.none => .error (.keyErr instanceNotFoundMsg)

/-- A plain Python function as `bind` sees it: usable as a predicate
(`inspect.isfunction` holds) and as a factory, with its introspectable
signature and observable behaviour. -/
structure PyFunc where
  pred : Ty → Bool
  behavior : FacBehavior
  isCoroutine : Bool
  sig : List Param

/-- A value appearing in a `bind` call's argument positions: Python
`None`, a string, a class, a plain function, or a non-callable instance. -/
inductive BVal where
  | noneV
  | str (s : String)
  | clsV (t : Ty)
  | funcV (f : PyFunc)
  | instV (v : PyVal)

/-- `callable(x)` over the modelled values. -/
def callableB : BVal → Bool
  | .clsV _ => true
  | .funcV _ => true
  | _ => false

/-- `inspect.isfunction(x)` over the modelled values (classes are
callable but are not functions). -/
def isFunctionB : BVal → Bool
  | .funcV _ => true
  | _ => false

def isNoneB : BVal → Bool
  | .noneV => true
  | _ => false

/-- The Python value a `BVal` denotes when stored as an instance. -/
def bvalToPyVal : BVal → PyVal
  | .noneV => PyVal.none
  | .str s => PyVal.str s
  | .clsV t => PyVal.clsVal t
  | .funcV _ => PyVal.pyfunc
  | .instV v => v

/-- The type component a selector contributes to an exact-map key
(non-type junk selectors are outside the model and collapse to `None`). -/
def bvalToTyOpt : BVal → Option Ty
  | .clsV t => some t
  | _ => Option.none

/-- The argname component of an exact-map key. -/
def bvalToName : BVal → Option PName
  | .str s => some s
  | _ => Option.none

/-- `inspect.signature(functools.partial(f, **kwargs))`: parameters
bound by keyword become keyword-only with a default. -/
def boundKwSig (sig : List Param) (kwargs : List (PName × PyVal)) : List Param :=
  sig.map (fun p => if (dictGet kwargs p.name).isSome then { p with hasDefault := true } else p)

def notCallableMsg : String := "object is not callable"

def cannotKwargsMsg : String := "Cannot pass kwargs when binding to an instance"

/-- `_wrap_factory_func`: partially apply the extra kwargs and build a
record in the sync or async slot; `inspect.signature` raises on
non-callables. -/
def wrapFactoryFunc (env : TyEnv) (bv : BVal) (kwargs : List (PName × PyVal)) :
    Except Err BindingRecord :=
  match bv with
  | .funcV f =>
      .ok { isAsync := f.isCoroutine, behavior := f.behavior, sig := boundKwSig f.sig kwargs }
  | .clsV t =>
      .ok { isAsync := false, behavior := (env t).ctorBehavior,
            sig := boundKwSig (env t).ctorSig kwargs }
  | _ => .error (.typeErr notCallableMsg)

/-- `_wrap_instance`: zero-argument sync factory returning the value;
extra kwargs are rejected. -/
def wrapInstance (v : PyVal) (kwargs : List (PName × PyVal)) : Except Err BindingRecord :=
  if kwargs.isEmpty then
    .ok { isAsync := false, behavior := .const v, sig := [] }
  else .error (.valueErr cannotKwargsMsg)

/-- `_wrap_generic_target`: callables become factories, everything else
a pre-built instance. -/
def wrapGenericTarget (env : TyEnv) (bv : BVal) (kwargs : List (PName × PyVal)) :
    Except Err BindingRecord :=
  if callableB bv then wrapFactoryFunc env bv kwargs
  else wrapInstance (bvalToPyVal bv) kwargs

/-- A `FactoryBox.bind` call site: positional arguments, the optional
keyword parameters (`none` models `_MISSING`), and the extra `**kwargs`. -/
structure BindCall where
  args : List BVal
  kwTypeSelector : Option BVal
  kwArgname : Option BVal
  kwTarget : Option BVal
  kwFactory : Option BVal
  kwInstance : Option BVal
  extra : List (PName × PyVal)

def incompatibleKwargsMsg : String :=
  "keyword arguments are incompatible with the used positional argument form"

def atMostThreeMsg : String := "bind() takes at most 3 positional arguments"

def exactlyOneMsg : String := "Exactly one of target, factory, or instance must be provided"

def eitherOneMsg : String := "Either target, factory, or instance must be provided"

def argnameNotAllowedMsg : String := "argname is not allowed when binding to a function"

/-- `_forbid_kwargs`: any non-`_MISSING` argument raises. -/
def forbidKwargs (l : List (Option BVal)) : Bool :=
  l.any Option.isSome

/-- The positional-shape dispatch of `_dispatch_arguments`, returning
the slotted (type_selector, argname, target, factory, instance) with the
`_MISSING` → `None` defaulting applied to selector and argname. -/
def slotArgs (c : BindCall) :
    Except Err (BVal × BVal × Option BVal × Option BVal × Option BVal) :=
  match c.args with
  | [a, b, t3] =>
    if forbidKwargs [c.kwTypeSelector, c.kwArgname, c.kwTarget] then
      .error (.typeErr incompatibleKwargsMsg)
    else .ok (a, b, some t3, c.kwFactory, c.kwInstance)
  | [a, b] =>
    if forbidKwargs [c.kwTypeSelector, c.kwArgname] then
      .error (.typeErr incompatibleKwargsMsg)
    else if c.kwFactory.isSome || c.kwInstance.isSome || c.kwTarget.isSome then
      .ok (a, b, c.kwTarget, c.kwFactory, c.kwInstance)
    else
      .ok (a, .noneV, some b, c.kwFactory, c.kwInstance)
  | [a] =>
    if forbidKwargs [c.kwTypeSelector] then .error (.typeErr incompatibleKwargsMsg)
    else .ok (a, (c.kwArgname.getD .noneV), c.kwTarget, c.kwFactory, c.kwInstance)
  | [] =>
    .ok ((c.kwTypeSelector.getD .noneV), (c.kwArgname.getD .noneV),
         c.kwTarget, c.kwFactory, c.kwInstance)
  | _ => .error (.typeErr atMostThreeMsg)

/-- `_dispatch_arguments`: slot the call shape, enforce that exactly one
of target/factory/instance is given, and normalize it to a record. -/
def dispatchArguments (env : TyEnv) (c : BindCall) : Except Err (BVal × BVal × BindingRecord) :=
  match slotArgs c with
  | .error e => .error e
  | .ok (ts, an, tgt, fac, inst) =>
    if (if tgt.isSome then 1 else 0) + (if fac.isSome then 1 else 0) +
        (if inst.isSome then 1 else 0) > 1 then
      .error (.typeErr exactlyOneMsg)
    else
      match tgt with
      | some tv =>
        match wrapGenericTarget env tv c.extra with
        | .error e => .error e
        | .ok r => .ok (ts, an, r)
      | Option.none =>
        match fac with
        | some fv =>
          match wrapFactoryFunc env fv c.extra with
          | .error e => .error e
          | .ok r => .ok (ts, an, r)
        | Option.none =>
          match inst with
          | some iv =>
            match wrapInstance (bvalToPyVal iv) c.extra with
            | .error e => .error e
            | .ok r => .ok (ts, an, r)
          | Option.none => .error (.typeErr eitherOneMsg)

/-- `FactoryBox._add_binding`: function selectors become predicate
bindings (rejecting an argname first); everything else goes into the
exact map under `(selector, argname)`. -/
def addBinding (reg : Registry) (ts an : BVal) (rec : BindingRecord) : Except Err Registry :=
  match ts with
  | .funcV f =>
    if isNoneB an then .ok { reg with preds := reg.preds ++ [(f.pred, rec)] }
    else .error (.valueErr argnameNotAllowedMsg)
  | _ => .ok { reg with map := dictSet reg.map (bvalToTyOpt ts, bvalToName an) rec }

/-- `FactoryBox.bind` as a state-passing operation: an exception leaves
the registry exactly as it was. -/
def fbBindS (env : TyEnv) (reg : Registry) (c : BindCall) : Except Err Unit × Registry :=
  match dispatchArguments env c with
  | .error e => (.error e, reg)
  | .ok (ts, an, rec) =>
    match addBinding reg ts an rec with
    | .error e => (.error e, reg)
    | .ok reg1 => (.ok (), reg1)

/-- The whole container: the factory registry plus the instance store
state. -/
structure DBox where
  reg : Registry
  st : St

def kwargsOnlyCallableMsg : String := "kwargs are only allowed when binding to a callable"

/-- `DIBox.bind`: callables are registered as factories; a predicate
selector with a non-callable target becomes a predicate binding to a
constant factory; otherwise the pre-built value is registered directly
in the instance store (extra kwargs being rejected). -/
def diboxBind (env : TyEnv) (d : DBox) (sel tgt : BVal) (name : Option PName)
    (kwargs : List (PName × PyVal)) : Except Err DBox :=
  if callableB tgt then
    match wrapFactoryFunc env tgt kwargs with
    | .error e => .error e
    | .ok rec =>
      match addBinding d.reg sel (match name with | some s => .str s | Option.none => .noneV) rec with
      | .error e => .error e
      | .ok reg1 => .ok { d with reg := reg1 }
  else if callableB sel && !(match sel with | .clsV _ => true | _ => false) then
    match addBinding d.reg sel (match name with | some s => .str s | Option.none => .noneV)
        { isAsync := false, behavior := .const (bvalToPyVal tgt), sig := [] } with
    | .error e => .error e
    | .ok reg1 => .ok { d with reg := reg1 }
  else if !kwargs.isEmpty then .error (.valueErr kwargsOnlyCallableMsg)
  else .ok { d with st := registerInstance d.st (bvalToTyOpt sel, name) (bvalToPyVal tgt) }

/-- Claim-side precedence for a single present type `t` and name `N`,
written as the spec orders the steps: exact `(t, N)`; if `N` is present,
type-only `(t, None)`; name-only `(None, N)` (the type is present);
predicate bindings in registration order; implicit self-construction of
`t` when it is a class; otherwise no binding. -/
def claimPrecedence (env : TyEnv) (reg : Registry) (t : Ty) (N : Option PName) :
    Except Err (BindingRecord × IKey) :=
  match dictGet reg.map (some t, N) with
  | some r => .ok (r, (some t, N))
  | Option.none =>
    match (if N.isSome then dictGet reg.map (some t, Option.none) else Option.none) with
    | some r => .ok (r, (some t, Option.none))
    | Option.none =>
      match dictGet reg.map (Option.none, N) with
      | some r => .ok (r, (Option.none, N))
      | Option.none =>
        match firstMatcher reg.preds t with
        | some r => .ok (r, (some t, Option.none))
        | Option.none =>
          if (env t).isClass then .ok (classRecord env t, (some t, Option.none))
          else .error (.valueErr noBindingMsg)

/-- Claim-side per-member map lookup for one union member: the
exact / type-only / name-only steps, in that order. -/
def claimMemberMatch (reg : Registry) (t : Ty) (N : Option PName) :
    Option (BindingRecord × IKey) :=
  match dictGet reg.map (some t, N) with
  | some r => some (r, (some t, N))
  | Option.none =>
    match (if N.isSome then dictGet reg.map (some t, Option.none) else Option.none) with
    | some r => some (r, (some t, Option.none))
    | Option.none =>
      match dictGet reg.map (Option.none, N) with
      | some r => some (r, (Option.none, N))
      | Option.none => Option.none

/-- Claim-side union scan: the member steps applied to each union
member in declared order, first hit wins. -/
def claimUnionScan (reg : Registry) (ts : List Ty) (N : Option PName) :
    Option (BindingRecord × IKey) :=
  match ts with
  | [] => Option.none
  | t :: rest =>
    match claimMemberMatch reg t N with
    | some m => some m
    | Option.none => claimUnionScan reg rest N

/-- Claim-side shutdown of one cached value: probe `__aexit__`, then
`aclose`, then `close`, then `__exit__`; context-exit capabilities get
the three `None` arguments, plain ones get none. -/
def claimCloseEvent (v : PyVal) : Option Event :=
  match v with
  | .obj o =>
    if o.caps.hasAexit then some (.closed o.ident "__aexit__" true)
    else if o.caps.hasAclose then some (.closed o.ident "aclose" false)
    else if o.caps.hasClose then some (.closed o.ident "close" false)
    else if o.caps.hasExit then some (.closed o.ident "__exit__" true)
    else Option.none
  | _ => Option.none

/-- Claim-side: the selector a `bind` call supplies (first positional,
else the keyword). -/
def suppliedSelector (c : BindCall) : Option BVal :=
  match c.args with
  | a :: _ => some a
  | [] => c.kwTypeSelector

/-- Claim-side: the argname a `bind` call supplies, per the documented
overloads (second positional in the three-argument form, second
positional in the two-argument form when a target/factory/instance
keyword is also given, else the keyword). -/
def suppliedArgname (c : BindCall) : Option BVal :=
  match c.args with
  | [_, b, _] => some b
  | [_, b] =>
    if c.kwTarget.isSome || c.kwFactory.isSome || c.kwInstance.isSome then some b
    else c.kwArgname
  | _ => c.kwArgname

/-- Claim-side: the target a `bind` call supplies, per the documented
overloads. -/
def suppliedTarget (c : BindCall) : Option BVal :=
  match c.args with
  | [_, _, t] => some t
  | [_, b] =>
    if c.kwTarget.isSome || c.kwFactory.isSome || c.kwInstance.isSome then c.kwTarget
    else some b
  | _ => c.kwTarget

/-- Claim-side: how many of target / factory / instance the call
supplies. -/
def sourceCount (c : BindCall) : Nat :=
  (if (suppliedTarget c).isSome then 1 else 0) +
    (if c.kwFactory.isSome then 1 else 0) +
    (if c.kwInstance.isSome then 1 else 0)

/-- Claim-side: the call supplies an argname together with a predicate
(plain function) selector. -/
def predicateWithArgname (c : BindCall) : Bool :=
  (match suppliedSelector c with
   | some s => isFunctionB s
   | Option.none => false) &&
  (match suppliedArgname c with
   | some a => !(isNoneB a)
   | Option.none => false)

/-- Claim-side: the call supplies extra keyword arguments together with
a pre-built instance (the instance keyword, or a non-callable target). -/
def instanceWithKwargs (c : BindCall) : Bool :=
  !c.extra.isEmpty &&
    (c.kwInstance.isSome ||
      (match suppliedTarget c with
       | some t => !(callableB t)
       | Option.none => false))

theorem dictGet_dictSet_self {κ ν : Type} [DecidableEq κ] (l : List (κ × ν)) (k : κ) (v : ν) :
    dictGet (dictSet l k v) k = some v := by
  induction l with
  | nil => simp [dictGet, dictSet]
  | cons hd tl ih =>
    obtain ⟨k0, v0⟩ := hd
    by_cases h : k = k0
    · simp [dictGet, dictSet, h]
    · simp [dictGet, dictSet, h, ih]

theorem dictGet_dictSet_ne {κ ν : Type} [DecidableEq κ] (l : List (κ × ν)) (k k' : κ) (v : ν)
    (h : k' ≠ k) : dictGet (dictSet l k v) k' = dictGet l k' := by
  induction l with
  | nil => simp [dictGet, dictSet, h]
  | cons hd tl ih =>
    obtain ⟨k0, v0⟩ := hd
    by_cases h0 : k = k0
    · subst h0
      simp [dictGet, dictSet, h]
    · by_cases h1 : k' = k0 <;> simp [dictGet, dictSet, h0, h1, ih]

theorem dictSet_eq_append {κ ν : Type} [DecidableEq κ] (l : List (κ × ν)) (k : κ) (v : ν)
    (h : dictGet l k = Option.none) : dictSet l k v = l ++ [(k, v)] := by
  induction l with
  | nil => simp [dictSet]
  | cons hd tl ih =>
    obtain ⟨k0, v0⟩ := hd
    by_cases h0 : k = k0
    · subst h0
      simp [dictGet] at h
    · simp [dictGet, h0] at h
      simp [dictSet, h0, ih h]

theorem shutdownStep_eq (tr : List Event) (v : PyVal) :
    shutdownStep tr v = tr ++ (claimCloseEvent v).toList := by
  cases v with
  | obj o =>
    obtain ⟨oid, caps⟩ := o
    obtain ⟨a1, a2, a3, b1, b2, b3, b4⟩ := caps
    cases b1 <;> cases b2 <;> cases b3 <;> cases b4 <;>
      simp [shutdownStep, claimCloseEvent, lookupMethod, closeMethods, hasMethod] <;> decide
  | none => simp [shutdownStep, claimCloseEvent]
  | str s => simp [shutdownStep, claimCloseEvent]
  | clsVal t => simp [shutdownStep, claimCloseEvent]
  | pyfunc => simp [shutdownStep, claimCloseEvent]

theorem closeLoop_eq (vs : List PyVal) (tr : List Event) :
    closeLoop tr vs = tr ++ vs.filterMap claimCloseEvent := by
  induction vs generalizing tr with
  | nil => simp [closeLoop]
  | cons v rest ih =>
    simp [closeLoop, shutdownStep_eq, ih, List.filterMap_cons]
    cases claimCloseEvent v <;> simp

theorem firstSome_singleton {α : Type} (x : Option α) : firstSome [x] = x := by
  cases x <;> rfl

theorem findMatchQ_single {V : Type} (get : IKey → Option V) (t : Ty) (N : Option PName) :
    findMatchQ get (.single t) N = findMatch1 get (some t) N := by
  simp [findMatchQ, expandType, firstSome_singleton]

/-- C1: for a single present type the binding is chosen exactly by the
exact > type-only > name-only > predicate > implicit-self-construction
precedence, and for a union query the member map steps are applied in
declared order, a hit preempting every fallback. -/
theorem C1_binding_precedence (env : TyEnv) (reg : Registry) :
    (∀ t N, findBinding env reg (.single t) N = claimPrecedence env reg t N) ∧
    (∀ ts N m, claimUnionScan reg ts N = some m →
      findBinding env reg (.union ts) N = .ok m) := by
  constructor
  · intro t N
    simp only [findBinding, findMatchQ_single, findMatch1, claimPrecedence,
      Option.isSome_some, if_true]
    cases h1 : dictGet reg.map (some t, N) with
    | some r => rfl
    | none =>
      cases h2 : (if N.isSome then dictGet reg.map (some t, Option.none) else Option.none) with
      | some r => rfl
      | none =>
        cases h3 : dictGet reg.map (Option.none, N) with
        | some r => rfl
        | none => rfl
  · intro ts N m h
    have key : ∀ t, claimMemberMatch reg t N = findMatch1 (dictGet reg.map) (some t) N := by
      intro t
      simp only [claimMemberMatch, findMatch1, Option.isSome_some, if_true]
      cases h1 : dictGet reg.map (some t, N) with
      | some r => rfl
      | none =>
        cases h2 : (if N.isSome then dictGet reg.map (some t, Option.none) else Option.none) with
        | some r => rfl
        | none =>
          cases h3 : dictGet reg.map (Option.none, N) with
          | some r => rfl
          | none => rfl
    have hq : findMatchQ (dictGet reg.map) (.union ts) N = some m := by
      simp only [findMatchQ, expandType]
      induction ts with
      | nil => simp [claimUnionScan] at h
      | cons t rest ih =>
        simp only [claimUnionScan, key] at h
        simp only [List.map, firstSome]
        cases hm : findMatch1 (dictGet reg.map) (some t) N with
        | some x =>
          rw [hm] at h
          simpa using h
        | none =>
          rw [hm] at h
          exact ih h
    simp [findBinding, hq]

/-- C3: closing the store shuts every cached value down in exact reverse
insertion order, probing `__aexit__`, `aclose`, `close`, `__exit__` (in
that order) and passing the three `None` arguments to the context-exit
capabilities; afterwards the store is cleared, so a second close tears
down nothing. -/
theorem C3_teardown_reverse_order (s : St) :
    closeStore s =
      { s with
        items := [],
        trace := s.trace ++ (s.items.map Prod.snd).reverse.filterMap claimCloseEvent } ∧
    closeStore (closeStore s) = closeStore s := by
  constructor
  · simp [closeStore, closeLoop_eq]
  · simp [closeStore, closeLoop_eq]

/-- C5 (amended): predicates are consulted, in registration order, only
for a single present type that found no exact-map match; a union or
absent query that misses the exact map fails at once with the
no-binding error, never reaching the predicate stage. -/
theorem C5_predicate_stage (env : TyEnv) (reg : Registry) :
    (∀ t N r, findMatchQ (dictGet reg.map) (.single t) N = Option.none →
      firstMatcher reg.preds t = some r →
      findBinding env reg (.single t) N = .ok (r, (some t, Option.none))) ∧
    (∀ (ps : List ((Ty → Bool) × BindingRecord)) t i (hi : i < ps.length),
      (∀ j (hj : j < i), (ps.get ⟨j, Nat.lt_trans hj hi⟩).1 t = false) →
      (ps.get ⟨i, hi⟩).1 t = true →
      firstMatcher ps t = some (ps.get ⟨i, hi⟩).2) ∧
    (∀ ts N, findMatchQ (dictGet reg.map) (.union ts) N = Option.none →
      findBinding env reg (.union ts) N = .error (.valueErr noBindingMsg)) ∧
    (∀ N, findMatchQ (dictGet reg.map) .noneQ N = Option.none →
      findBinding env reg .noneQ N = .error (.valueErr noBindingMsg)) := by
  refine ⟨?_, ?_, ?_, ?_⟩
  · intro t N r hmap hp
    simp [findBinding, hmap, hp]
  · intro ps
    induction ps with
    | nil =>
      intro t i hi
      simp at hi
    | cons hd tl ih =>
      intro t i hi hbefore hit
      obtain ⟨p, r⟩ := hd
      cases i with
      | zero =>
        simp only [List.get] at hit
        simp [firstMatcher, hit]
      | succ i0 =>
        have h0 : p t = false := by
          have := hbefore 0 (Nat.succ_pos i0)
          simpa using this
        simp only [firstMatcher, h0, Bool.false_eq_true, if_false]
        have := ih t i0 (Nat.lt_of_succ_lt_succ hi)
          (fun j hj => by
            have := hbefore (j + 1) (Nat.succ_lt_succ hj)
            simpa using this)
          (by simpa using hit)
        simpa using this
  · intro ts N hmap
    simp [findBinding, hmap]
  · intro N hmap
    simp [findBinding, hmap]

/-- C7: with no exact-map match and no matching predicate, a single
requested type self-constructs when it is a class (the type itself
becoming the zero-configuration factory, matched key `(type, None)`) and
otherwise the lookup fails with the no-binding error. -/
theorem C7_implicit_fallback (env : TyEnv) (reg : Registry) (t : Ty) (N : Option PName)
    (hmap : findMatchQ (dictGet reg.map) (.single t) N = Option.none)
    (hpred : firstMatcher reg.preds t = Option.none) :
    findBinding env reg (.single t) N =
      (if (env t).isClass then .ok (classRecord env t, (some t, Option.none))
       else .error (.valueErr noBindingMsg)) := by
  simp [findBinding, hmap, hpred]

/-- No lifecycle capabilities. -/
def caps0 : Caps :=
  { hasAenter := false, hasStart := false, hasEnter := false,
    hasAexit := false, hasAclose := false, hasClose := false, hasExit := false }

/-- A world in which every type is an instantiable class with a
zero-parameter constructor producing a fresh plain object. -/
def env0 : TyEnv := fun _ =>
  { isClass := true, ctorBehavior := .fresh caps0, ctorSig := [] }

/-- An empty registry. -/
def reg0 : Registry := { map := [], preds := [] }

def recX : BindingRecord := { isAsync := false, behavior := .const (.str "X"), sig := [] }

def recY : BindingRecord := { isAsync := false, behavior := .const (.str "Y"), sig := [] }

def recZ : BindingRecord := { isAsync := false, behavior := .const (.str "Z"), sig := [] }

/-- The spec's precedence example registry: (Bar, "arg") → X,
(Bar, None) → Y, (None, "arg") → Z, with Bar = `Ty.c 1`. -/
def regPrec : Registry :=
  { map := [((some (Ty.c 1), some "arg"), recX),
            ((some (Ty.c 1), Option.none), recY),
            ((Option.none, some "arg"), recZ)],
    preds := [] }

theorem C1_binding_precedence_witness :
    findBinding env0 regPrec (.single (Ty.c 1)) (some "arg") =
      claimPrecedence env0 regPrec (Ty.c 1) (some "arg") ∧
    claimUnionScan regPrec [Ty.c 9, Ty.c 1] (some "other") =
      some (recY, (some (Ty.c 1), Option.none)) ∧
    findBinding env0 regPrec (.union [Ty.c 9, Ty.c 1]) (some "other") =
      .ok (recY, (some (Ty.c 1), Option.none)) :=
  ⟨(C1_binding_precedence env0 regPrec).1 (Ty.c 1) (some "arg"), by decide,
   (C1_binding_precedence env0 regPrec).2 [Ty.c 9, Ty.c 1] (some "other")
     (recY, (some (Ty.c 1), Option.none)) (by decide)⟩

def predTrue : Ty → Bool := fun _ => true

def recP : BindingRecord := { isAsync := false, behavior := .const (.str "P"), sig := [] }

/-- A registry whose only binding is a predicate matching every type. -/
def regPredOnly : Registry := { map := [], preds := [(predTrue, recP)] }

/-- C5 counterexample: with an empty exact map and a predicate that
returns true on every type, a union request still fails with the
no-binding error — the predicate is never consulted for union queries,
contrary to the claim. -/
theorem C5_union_predicate_counterexample :
    predTrue (Ty.c 0) = true ∧ predTrue (Ty.c 1) = true ∧ regPredOnly.map = [] ∧
    findBinding env0 regPredOnly (.union [Ty.c 0, Ty.c 1]) Option.none =
      .error (.valueErr noBindingMsg) :=
  ⟨rfl, rfl, rfl, rfl⟩

theorem C5_predicate_stage_witness :
    findMatchQ (dictGet regPredOnly.map) (.single (Ty.c 2)) Option.none = Option.none ∧
    firstMatcher regPredOnly.preds (Ty.c 2) = some recP ∧
    findBinding env0 regPredOnly (.single (Ty.c 2)) Option.none =
      .ok (recP, (some (Ty.c 2), Option.none)) ∧
    findMatchQ (dictGet regPredOnly.map) (.union [Ty.c 0, Ty.c 1]) Option.none = Option.none ∧
    findBinding env0 regPredOnly (.union [Ty.c 0, Ty.c 1]) Option.none =
      .error (.valueErr noBindingMsg) :=
  ⟨rfl, rfl,
   (C5_predicate_stage env0 regPredOnly).1 (Ty.c 2) Option.none recP rfl rfl,
   rfl,
   (C5_predicate_stage env0 regPredOnly).2.2.1 [Ty.c 0, Ty.c 1] Option.none rfl⟩

theorem C7_implicit_fallback_witness :
    findMatchQ (dictGet reg0.map) (.single (Ty.c 3)) (some "x") = Option.none ∧
    firstMatcher reg0.preds (Ty.c 3) = Option.none ∧
    findBinding env0 reg0 (.single (Ty.c 3)) (some "x") =
      (if (env0 (Ty.c 3)).isClass then .ok (classRecord env0 (Ty.c 3), (some (Ty.c 3), Option.none))
       else .error (.valueErr noBindingMsg)) :=
  ⟨rfl, rfl, C7_implicit_fallback env0 reg0 (Ty.c 3) (some "x") rfl rfl⟩

/-- A binding whose factory returns Python `None`. -/
def noneRec : BindingRecord := { isAsync := false, behavior := .const PyVal.none, sig := [] }

/-- A registry binding `(c, N)` to the `None`-returning factory. -/
def regNone (c : Ty) (N : Option PName) : Registry :=
  { map := [((some c, N), noneRec)], preds := [] }

/-- C9: a factory returning `None` is never memoized — starting from an
empty store, `provide` invokes it and stores `None`, a second `provide`
invokes it again (one more invoke event), and the synchronous `resolve`
still fails with its not-found error after the first `provide`
completed, because the stored `None` doubles as the not-found sentinel. -/
theorem C9_none_result_not_memoized (env : TyEnv) (c : Ty) (N : Option PName)
    (fuel n : Nat) (tr : List Event) :
    provideF env (regNone c N) (fuel + 1) ⟨[], n, tr⟩ (.single c) N =
      (.ok PyVal.none, ⟨[((some c, N), PyVal.none)], n, tr ++ [Event.invoke []]⟩) ∧
    resolveF ⟨[((some c, N), PyVal.none)], n, tr ++ [Event.invoke []]⟩ (.single c) N =
      .error (.keyErr instanceNotFoundMsg) ∧
    provideF env (regNone c N) (fuel + 1)
        ⟨[((some c, N), PyVal.none)], n, tr ++ [Event.invoke []]⟩ (.single c) N =
      (.ok PyVal.none,
        ⟨[((some c, N), PyVal.none)], n, (tr ++ [Event.invoke []]) ++ [Event.invoke []]⟩) := by
  refine ⟨?_, ?_, ?_⟩ <;>
    cases N <;>
      simp [provideF, getInstance, findMatchQ, expandType, firstSome, findMatch1, itemsGet,
        dictGet, createInstanceWith, findBinding, regNone, noneRec, findFactoryBoundArguments,
        listDependencies, mergeArgs, provideDepsWith, storeCreate, runFactory, startInstance,
        resolveF, dictSet]

theorem runFactory_items (s : St) (rec : BindingRecord) (args : List (PName × ArgVal)) :
    (runFactory s rec args).2.items = s.items := by
  cases rec with
  | mk a b sg => cases b <;> rfl

theorem startInstance_items (s : St) (v : PyVal) :
    (startInstance s v).items = s.items := by
  cases v with
  | obj o =>
    simp only [startInstance]
    cases lookupMethod o.caps startMethods <;> rfl
  | none => rfl
  | str s0 => rfl
  | clsVal t => rfl
  | pyfunc => rfl

theorem findBinding_single_none_key (env : TyEnv) (reg : Registry) (c : Ty)
    (rec : BindingRecord) (K : IKey)
    (hreg : dictGet reg.map (Option.none, Option.none) = Option.none)
    (h : findBinding env reg (.single c) Option.none = .ok (rec, K)) :
    K = (some c, Option.none) := by
  simp only [findBinding, findMatchQ_single, findMatch1, Option.isSome_none,
    Bool.false_eq_true, if_false, Option.isSome_some, if_true, hreg] at h
  cases hex : dictGet reg.map (some c, Option.none) with
  | some r =>
    rw [hex] at h
    simp at h
    exact h.2.symm
  | none =>
    rw [hex] at h
    cases hp : firstMatcher reg.preds c with
    | some r =>
      rw [hp] at h
      simp at h
      exact h.2.symm
    | none =>
      rw [hp] at h
      by_cases hcl : (env c).isClass
      · simp [hcl] at h
        exact h.2.symm
      · simp [hcl] at h

theorem provide_memoized_core (env : TyEnv) (reg : Registry) (fuel fuel' : Nat) (s : St)
    (c : Ty) (v : PyVal) (s' : St)
    (hreg : dictGet reg.map (Option.none, Option.none) = Option.none)
    (h : provideF env reg fuel s (.single c) Option.none = (.ok v, s'))
    (hv : v ≠ PyVal.none) :
    provideF env reg (fuel' + 1) s' (.single c) Option.none = (.ok v, s') := by
  cases fuel with
  | zero => simp [provideF] at h
  | succ f =>
    simp only [provideF] at h
    cases hg : getInstance s (.single c) Option.none with
    | some w =>
      rw [hg] at h
      simp only [Prod.mk.injEq, Except.ok.injEq] at h
      obtain ⟨hw, hs⟩ := h
      subst hw
      subst hs
      simp [provideF, hg]
    | none =>
      rw [hg] at h
      have hfin : itemsGet s'.items (some c, Option.none) = some v := by
        simp only [createInstanceWith] at h
        cases hfb : findBinding env reg (.single c) Option.none with
        | error e => rw [hfb] at h; simp at h
        | ok rk =>
          obtain ⟨rec, K⟩ := rk
          have hK := findBinding_single_none_key env reg c rec K hreg hfb
          subst hK
          rw [hfb] at h
          dsimp only at h
          cases hdp : provideDepsWith (provideF env reg f) s
              (listDependencies rec.sig (findFactoryBoundArguments (.single c) rec.sig)) with
          | mk res s1 =>
            rw [hdp] at h
            cases res with
            | error e => simp at h
            | ok deps =>
              simp only [storeCreate] at h
              cases hex : itemsGet s1.items (some c, Option.none) with
              | some w =>
                rw [hex] at h
                simp only [Prod.mk.injEq, Except.ok.injEq] at h
                obtain ⟨hw, hs⟩ := h
                subst hw
                subst hs
                exact hex
              | none =>
                rw [hex] at h
                cases hrf : runFactory s1 rec (mergeArgs deps
                    (findFactoryBoundArguments (.single c) rec.sig)) with
                | mk rres s2 =>
                  rw [hrf] at h
                  cases rres with
                  | error e => simp at h
                  | ok w =>
                    simp only [Prod.mk.injEq, Except.ok.injEq] at h
                    obtain ⟨hw, hs⟩ := h
                    subst hw
                    rw [← hs]
                    simp [itemsGet, dictGet_dictSet_self, hv]
      simp only [provideF]
      have hg2 : getInstance s' (.single c) Option.none = some v := by
        simp [getInstance, findMatchQ_single, findMatch1, hfin]
      rw [hg2]

/-- A factory with one required dependency parameter `t : Ty.c 0`. -/
def recDep : BindingRecord :=
  { isAsync := false, behavior := .fresh caps0,
    sig := [{ name := "t", ann := .q (Ty.c 0), hasDefault := false, isVariadic := false }] }

/-- A registry with only the name-only binding `(None, "x") → recDep`. -/
def regShadow : Registry := { map := [((Option.none, some "x"), recDep)], preds := [] }

def sEmpty : St := { items := [], nextId := 0, trace := [] }

/-- State after the first `provide (Ty.c 0, "x")` against `regShadow`:
the dependency was implicitly self-constructed and cached at
`(Ty.c 0, None)`, the result at `(None, "x")`. -/
def stShadow : St :=
  { items := [((some (Ty.c 0), Option.none), .obj ⟨0, caps0⟩),
              ((Option.none, some "x"), .obj ⟨1, caps0⟩)],
    nextId := 2,
    trace := [Event.invoke [], Event.invoke [("t", .val (.obj ⟨0, caps0⟩))]] }

/-- C2 counterexample: two sequential `provide` calls with the equal
request `(Ty.c 0, "x")` return different instances — the first returns
the factory product (ident 1), but its dependency, cached at the
higher-precedence key `(Ty.c 0, None)`, shadows the name-only matched
key `(None, "x")` on the second lookup, which returns ident 0. -/
theorem C2_memoization_counterexample :
    provideF env0 regShadow 3 sEmpty (.single (Ty.c 0)) (some "x") =
      (.ok (.obj ⟨1, caps0⟩), stShadow) ∧
    provideF env0 regShadow 3 stShadow (.single (Ty.c 0)) (some "x") =
      (.ok (.obj ⟨0, caps0⟩), stShadow) ∧
    PyVal.obj ⟨1, caps0⟩ ≠ PyVal.obj ⟨0, caps0⟩ := by
  exact ⟨by rfl, by rfl, by decide⟩

def barRec : BindingRecord := { isAsync := false, behavior := .fresh caps0, sig := [] }

def regBar : Registry := { map := [((some (Ty.c 1), Option.none), barRec)], preds := [] }

def stBar : St :=
  { items := [((some (Ty.c 1), Option.none), .obj ⟨0, caps0⟩)],
    nextId := 1, trace := [Event.invoke []] }

/-- C2 (amended): a successful `provide` of a single-type request with
no name, in a registry without a catch-all `(None, None)` entry and with
a non-`None` result, is memoized: a second equal `provide` returns the
identical instance with the state unchanged (hence no factory
re-invocation); and concretely, requesting `Bar` after `int | Bar` was
provided returns the cached instance with no further invocation. -/
theorem C2_memoization_amended :
    (∀ (env : TyEnv) (reg : Registry) (fuel fuel' : Nat) (s : St) (c : Ty) (v : PyVal) (s' : St),
      dictGet reg.map (Option.none, Option.none) = Option.none →
      provideF env reg fuel s (.single c) Option.none = (.ok v, s') →
      v ≠ PyVal.none →
      provideF env reg (fuel' + 1) s' (.single c) Option.none = (.ok v, s')) ∧
    provideF env0 regBar 3 sEmpty (.union [Ty.c 8, Ty.c 1]) Option.none =
      (.ok (.obj ⟨0, caps0⟩), stBar) ∧
    provideF env0 regBar 3 stBar (.single (Ty.c 1)) Option.none =
      (.ok (.obj ⟨0, caps0⟩), stBar) := by
  refine ⟨?_, by rfl, by rfl⟩
  intro env reg fuel fuel' s c v s' hreg h hv
  exact provide_memoized_core env reg fuel fuel' s c v s' hreg h hv

/-- C2 amended-claim witness at a concrete input: providing `Ty.c 1`
twice from the `regBar` registry returns the identical object with the
state unchanged. -/
theorem C2_memoization_amended_witness :
    dictGet regBar.map (Option.none, Option.none) = Option.none ∧
    provideF env0 regBar 2 sEmpty (.single (Ty.c 1)) Option.none =
      (.ok (.obj ⟨0, caps0⟩), stBar) ∧
    (PyVal.obj ⟨0, caps0⟩ : PyVal) ≠ PyVal.none ∧
    provideF env0 regBar 3 stBar (.single (Ty.c 1)) Option.none =
      (.ok (.obj ⟨0, caps0⟩), stBar) :=
  ⟨by rfl, by rfl, by decide,
   C2_memoization_amended.1 env0 regBar 2 2 sEmpty (Ty.c 1) (.obj ⟨0, caps0⟩) stBar
     (by rfl) (by rfl) (by decide)⟩

theorem startInstance_trace (s : St) (v : PyVal) :
    ∃ x, (startInstance s v).trace = s.trace ++ x := by
  cases v with
  | obj o =>
    simp only [startInstance]
    cases lookupMethod o.caps startMethods with
    | some m => exact ⟨[Event.started o.ident m], rfl⟩
    | none => exact ⟨[], by simp⟩
  | none => exact ⟨[], by simp [startInstance]⟩
  | str s0 => exact ⟨[], by simp [startInstance]⟩
  | clsVal t => exact ⟨[], by simp [startInstance]⟩
  | pyfunc => exact ⟨[], by simp [startInstance]⟩

/-- A factory whose first (and only) parameter is annotated with the
bare builtin `type` and carries a default value. -/
def recBareType : BindingRecord :=
  { isAsync := false, behavior := .fresh caps0,
    sig := [{ name := "t", ann := .q Ty.type, hasDefault := true, isVariadic := false }] }

def regBareType : Registry :=
  { map := [((some (Ty.c 0), Option.none), recBareType)], preds := [] }

/-- C4 counterexample: for a chosen factory whose first parameter is
annotated with the bare `type` (whose `typing.get_origin` is `None`,
not `type`), no eager binding is computed and the resolver invokes the
factory with no arguments at all — the first parameter does not receive
the matched type. -/
theorem C4_bare_type_counterexample :
    findFactoryBoundArguments (.single (Ty.c 0)) recBareType.sig = [] ∧
    provideF env0 regBareType 2 sEmpty (.single (Ty.c 0)) Option.none =
      (.ok (.obj ⟨0, caps0⟩),
        { items := [((some (Ty.c 0), Option.none), .obj ⟨0, caps0⟩)],
          nextId := 1, trace := [Event.invoke []] }) :=
  ⟨by rfl, by rfl⟩

/-- C4 (amended): the eager first-argument binding applies exactly when
the chosen factory's first parameter is unannotated or annotated with a
subscripted `type[...]` form (generic origin `type`); it is bound to the
originally requested type query; any other annotation — including the
bare `type` — computes no binding.  The resolver merges the resolved
dependencies with this override (the override winning), hands exactly
that argument list to the instance store's create step, and an actual
creation records the invocation with exactly those arguments. -/
theorem C4_type_argument_injection_amended :
    (∀ (T : TyQuery) (p : Param) (rest : List Param), p.ann = .empty →
      findFactoryBoundArguments T (p :: rest) = [(p.name, .tyArg T)]) ∧
    (∀ (T : TyQuery) (p : Param) (rest : List Param) (t : Ty),
      p.ann = .q t → getOriginIsType t = true →
      findFactoryBoundArguments T (p :: rest) = [(p.name, .tyArg T)]) ∧
    (∀ (T : TyQuery) (p : Param) (rest : List Param) (t : Ty),
      p.ann = .q t → getOriginIsType t = false →
      findFactoryBoundArguments T (p :: rest) = []) ∧
    (∀ (T : TyQuery) (p : Param) (rest : List Param) (deps : List (PName × ArgVal)),
      (p.ann = .empty ∨ ∃ t, p.ann = .q t ∧ getOriginIsType t = true) →
      dictGet (mergeArgs deps (findFactoryBoundArguments T (p :: rest))) p.name =
        some (.tyArg T)) ∧
    (∀ (env : TyEnv) (reg : Registry)
      (pv : St → TyQuery → Option PName → Except Err PyVal × St)
      (s : St) (T : TyQuery) (N : Option PName) (rec : BindingRecord) (K : IKey)
      (deps : List (PName × ArgVal)) (s1 : St),
      findBinding env reg T N = .ok (rec, K) →
      provideDepsWith pv s
        (listDependencies rec.sig (findFactoryBoundArguments T rec.sig)) = (.ok deps, s1) →
      createInstanceWith env reg pv s T N =
        storeCreate s1 K rec (mergeArgs deps (findFactoryBoundArguments T rec.sig))) ∧
    (∀ (s : St) (K : IKey) (rec : BindingRecord) (args : List (PName × ArgVal)),
      itemsGet s.items K = Option.none →
      ∃ tail, (storeCreate s K rec args).2.trace = s.trace ++ Event.invoke args :: tail) := by
  refine ⟨?_, ?_, ?_, ?_, ?_, ?_⟩
  · intro T p rest hp
    simp [findFactoryBoundArguments, hp]
  · intro T p rest t hp ht
    simp [findFactoryBoundArguments, hp, ht]
  · intro T p rest t hp ht
    simp [findFactoryBoundArguments, hp, ht]
  · intro T p rest deps hcond
    have hov : findFactoryBoundArguments T (p :: rest) = [(p.name, .tyArg T)] := by
      rcases hcond with hp | ⟨t, hp, ht⟩
      · simp [findFactoryBoundArguments, hp]
      · simp [findFactoryBoundArguments, hp, ht]
    rw [hov]
    simp only [mergeArgs, List.foldl]
    exact dictGet_dictSet_self deps p.name (.tyArg T)
  · intro env reg pv s T N rec K deps s1 hfb hdp
    simp only [createInstanceWith, hfb, hdp]
  · intro s K rec args hex
    simp only [storeCreate, hex]
    cases hb : rec.behavior with
    | raise m =>
      refine ⟨[], ?_⟩
      simp [runFactory, hb]
    | const v =>
      obtain ⟨x, hx⟩ := startInstance_trace { s with trace := s.trace ++ [Event.invoke args] } v
      refine ⟨x, ?_⟩
      simp only [runFactory, hb]
      simpa using hx
    | fresh caps =>
      obtain ⟨x, hx⟩ := startInstance_trace
        { s with trace := s.trace ++ [Event.invoke args], nextId := s.nextId + 1 }
        (.obj ⟨s.nextId, caps⟩)
      refine ⟨x, ?_⟩
      simp only [runFactory, hb]
      simpa using hx

theorem C4_type_argument_injection_amended_witness :
    (Param.mk "t" (.q (Ty.tAlias 0)) false false).ann = .q (Ty.tAlias 0) ∧
    getOriginIsType (Ty.tAlias 0) = true ∧
    findFactoryBoundArguments (.single (Ty.c 5)) [Param.mk "t" (.q (Ty.tAlias 0)) false false] =
      [("t", .tyArg (.single (Ty.c 5)))] :=
  ⟨rfl, rfl,
   C4_type_argument_injection_amended.2.1 (.single (Ty.c 5))
     (Param.mk "t" (.q (Ty.tAlias 0)) false false) [] (Ty.tAlias 0) rfl rfl⟩

theorem itemsGet_dictSet_ne (its : List (IKey × PyVal)) (K k : IKey) (v : PyVal)
    (h : k ≠ K) : itemsGet (dictSet its K v) k = itemsGet its k := by
  simp [itemsGet, dictGet_dictSet_ne its K k v h]

theorem storeCreate_preserves (s : St) (K : IKey) (rec : BindingRecord)
    (args : List (PName × ArgVal)) (k : IKey) (v : PyVal)
    (hv : itemsGet s.items k = some v) :
    itemsGet (storeCreate s K rec args).2.items k = some v := by
  simp only [storeCreate]
  cases hex : itemsGet s.items K with
  | some w => exact hv
  | none =>
    cases hrf : runFactory s rec args with
    | mk rres s2 =>
      cases rres with
      | error e =>
        have : s2.items = s.items := by
          have := runFactory_items s rec args
          rw [hrf] at this
          exact this
        simpa [this] using hv
      | ok w =>
        have hkK : k ≠ K := by
          intro hkk
          rw [hkk, hex] at hv
          cases hv
        have h2 : s2.items = s.items := by
          have := runFactory_items s rec args
          rw [hrf] at this
          exact this
        simp only []
        rw [itemsGet_dictSet_ne _ _ _ _ hkK, startInstance_items, h2]
        exact hv

theorem provideDepsWith_preserves
    (pv : St → TyQuery → Option PName → Except Err PyVal × St)
    (hpv : ∀ s T N k v, itemsGet s.items k = some v →
      itemsGet (pv s T N).2.items k = some v)
    (deps : List (PName × TyQuery)) (s : St) (k : IKey) (v : PyVal)
    (hv : itemsGet s.items k = some v) :
    itemsGet (provideDepsWith pv s deps).2.items k = some v := by
  induction deps generalizing s with
  | nil => exact hv
  | cons d rest ih =>
    obtain ⟨n, q⟩ := d
    simp only [provideDepsWith]
    cases hp : pv s q (some n) with
    | mk res s1 =>
      have hs1 : itemsGet s1.items k = some v := by
        have := hpv s q (some n) k v hv
        rw [hp] at this
        exact this
      cases res with
      | error e => exact hs1
      | ok w =>
        dsimp only
        cases hr : provideDepsWith pv s1 rest with
        | mk res2 s2 =>
          have hs2 : itemsGet s2.items k = some v := by
            have := ih s1 hs1
            rw [hr] at this
            exact this
          cases res2 with
          | error e => exact hs2
          | ok ws => exact hs2

theorem createInstanceWith_preserves (env : TyEnv) (reg : Registry)
    (pv : St → TyQuery → Option PName → Except Err PyVal × St)
    (hpv : ∀ s T N k v, itemsGet s.items k = some v →
      itemsGet (pv s T N).2.items k = some v)
    (s : St) (T : TyQuery) (N : Option PName) (k : IKey) (v : PyVal)
    (hv : itemsGet s.items k = some v) :
    itemsGet (createInstanceWith env reg pv s T N).2.items k = some v := by
  simp only [createInstanceWith]
  cases hfb : findBinding env reg T N with
  | error e => exact hv
  | ok rk =>
    obtain ⟨rec, K⟩ := rk
    dsimp only
    cases hdp : provideDepsWith pv s
        (listDependencies rec.sig (findFactoryBoundArguments T rec.sig)) with
    | mk res s1 =>
      have hs1 : itemsGet s1.items k = some v := by
        have := provideDepsWith_preserves pv hpv
          (listDependencies rec.sig (findFactoryBoundArguments T rec.sig)) s k v hv
        rw [hdp] at this
        exact this
      cases res with
      | error e => exact hs1
      | ok deps => exact storeCreate_preserves s1 K rec _ k v hs1

theorem provideF_preserves (env : TyEnv) (reg : Registry) (fuel : Nat) (s : St)
    (T : TyQuery) (N : Option PName) (k : IKey) (v : PyVal)
    (hv : itemsGet s.items k = some v) :
    itemsGet (provideF env reg fuel s T N).2.items k = some v := by
  induction fuel generalizing s T N k v with
  | zero => exact hv
  | succ f ih =>
    simp only [provideF]
    cases hg : getInstance s T N with
    | some w => exact hv
    | none =>
      exact createInstanceWith_preserves env reg (provideF env reg f)
        (fun s0 T0 N0 k0 v0 hv0 => ih s0 T0 N0 k0 v0 hv0) s T N k v hv

/-- A world in which `Ty.c 2` is not a class (e.g. a non-type value in
an annotation) and every other type is an instantiable class. -/
def envC6 : TyEnv := fun t =>
  match t with
  | .c 2 => { isClass := false, ctorBehavior := .const PyVal.none, ctorSig := [] }
  | _ => { isClass := true, ctorBehavior := .fresh caps0, ctorSig := [] }

/-- A factory needing dependencies `a : Ty.c 1` (resolvable) and then
`b : Ty.c 2` (unresolvable). -/
def recTwoDeps : BindingRecord :=
  { isAsync := false, behavior := .fresh caps0,
    sig := [Param.mk "a" (.q (Ty.c 1)) false false,
            Param.mk "b" (.q (Ty.c 2)) false false] }

def regTwoDeps : Registry :=
  { map := [((some (Ty.c 0), Option.none), recTwoDeps)], preds := [] }

/-- C6 counterexample: a `provide` that fails (its second dependency has
no binding and is not instantiable) still leaves the first,
already-created dependency in the instance store — the store is not
unchanged, a key was added by the failing call. -/
theorem C6_store_changed_counterexample :
    sEmpty.items = [] ∧
    provideF envC6 regTwoDeps 3 sEmpty (.single (Ty.c 0)) Option.none =
      (.error (.valueErr noBindingMsg),
        { items := [((some (Ty.c 1), Option.none), .obj ⟨0, caps0⟩)],
          nextId := 1, trace := [Event.invoke []] }) ∧
    [((some (Ty.c 1), Option.none), PyVal.obj ⟨0, caps0⟩)] ≠ ([] : List (IKey × PyVal)) :=
  ⟨rfl, by rfl, by decide⟩

/-- C6 (amended): a failing `provide` propagates its error immediately
and preserves every previously cached (non-`None`) entry; when the
chosen factory has no resolvable dependency parameters the items store
is left completely unchanged, and when the binding lookup itself fails
(with nothing cached for the request) the whole state is untouched —
but dependencies created before the failure stay cached. -/
theorem C6_failed_provide_amended :
    (∀ (env : TyEnv) (reg : Registry) (fuel : Nat) (s : St) (T : TyQuery)
      (N : Option PName) (e : Err) (s' : St),
      provideF env reg fuel s T N = (.error e, s') →
      ∀ k v, itemsGet s.items k = some v → itemsGet s'.items k = some v) ∧
    (∀ (env : TyEnv) (reg : Registry) (fuel : Nat) (s : St) (T : TyQuery)
      (N : Option PName) (e : Err) (s' : St) (rec : BindingRecord) (K : IKey),
      findBinding env reg T N = .ok (rec, K) →
      listDependencies rec.sig (findFactoryBoundArguments T rec.sig) = [] →
      provideF env reg fuel s T N = (.error e, s') →
      s'.items = s.items) ∧
    (∀ (env : TyEnv) (reg : Registry) (fuel : Nat) (s : St) (T : TyQuery)
      (N : Option PName) (e : Err),
      findBinding env reg T N = .error e →
      getInstance s T N = Option.none →
      provideF env reg (fuel + 1) s T N = (.error e, s)) := by
  refine ⟨?_, ?_, ?_⟩
  · intro env reg fuel s T N e s' h k v hv
    have := provideF_preserves env reg fuel s T N k v hv
    rw [h] at this
    exact this
  · intro env reg fuel s T N e s' rec K hfb hdeps h
    cases fuel with
    | zero =>
      simp only [provideF, Prod.mk.injEq] at h
      rw [← h.2]
    | succ f =>
      simp only [provideF] at h
      cases hg : getInstance s T N with
      | some w => rw [hg] at h; simp at h
      | none =>
        rw [hg] at h
        simp only [createInstanceWith, hfb] at h
        rw [hdeps] at h
        simp only [provideDepsWith] at h
        simp only [storeCreate] at h
        cases hex : itemsGet s.items K with
        | some w => rw [hex] at h; simp at h
        | none =>
          rw [hex] at h
          cases hb : rec.behavior with
          | raise m =>
            simp only [runFactory, hb, Prod.mk.injEq] at h
            rw [← h.2]
          | const v =>
            simp only [runFactory, hb] at h
            simp at h
          | fresh caps =>
            simp only [runFactory, hb] at h
            simp at h
  · intro env reg fuel s T N e hfb hg
    simp [provideF, hg, createInstanceWith, hfb]

def stC6w : St :=
  { items := [((some (Ty.c 9), Option.none), .obj ⟨7, caps0⟩)], nextId := 8, trace := [] }

theorem C6_failed_provide_amended_witness :
    provideF envC6 regTwoDeps 1 stC6w (.single (Ty.c 2)) Option.none =
      (.error (.valueErr noBindingMsg), stC6w) ∧
    itemsGet stC6w.items (some (Ty.c 9), Option.none) = some (.obj ⟨7, caps0⟩) ∧
    findBinding envC6 regTwoDeps (.single (Ty.c 2)) Option.none =
      .error (.valueErr noBindingMsg) ∧
    getInstance stC6w (.single (Ty.c 2)) Option.none = Option.none ∧
    provideF envC6 regTwoDeps 1 stC6w (.single (Ty.c 2)) Option.none =
      (.error (.valueErr noBindingMsg), stC6w) :=
  ⟨by rfl, by rfl, by rfl, by rfl,
   C6_failed_provide_amended.2.2 envC6 regTwoDeps 0 stC6w (.single (Ty.c 2)) Option.none
     (.valueErr noBindingMsg) (by rfl) (by rfl)⟩

theorem slotArgs_spec (c : BindCall) (ts an : BVal) (tgt fac inst : Option BVal)
    (h : slotArgs c = .ok (ts, an, tgt, fac, inst)) :
    tgt = suppliedTarget c ∧ fac = c.kwFactory ∧ inst = c.kwInstance ∧
    (∀ sv, suppliedSelector c = some sv → ts = sv) ∧
    (∀ av, suppliedArgname c = some av → an = av) := by
  obtain ⟨args, kts, kan, ktg, kfa, kin, ext⟩ := c
  cases args with
  | nil =>
    simp only [slotArgs, Except.ok.injEq, Prod.mk.injEq] at h
    obtain ⟨h1, h2, h3, h4, h5⟩ := h
    subst h1 h2 h3 h4 h5
    refine ⟨rfl, rfl, rfl, ?_, ?_⟩
    · intro sv hsv
      simp only [suppliedSelector] at hsv
      simp [hsv]
    · intro av hav
      simp only [suppliedArgname] at hav
      simp [hav]
  | cons a r1 =>
    cases r1 with
    | nil =>
      simp only [slotArgs] at h
      by_cases hfk : forbidKwargs [kts]
      · simp [hfk] at h
      · simp only [hfk, Bool.false_eq_true, if_false, Except.ok.injEq, Prod.mk.injEq] at h
        obtain ⟨h1, h2, h3, h4, h5⟩ := h
        subst h1 h2 h3 h4 h5
        refine ⟨rfl, rfl, rfl, ?_, ?_⟩
        · intro sv hsv
          simp only [suppliedSelector] at hsv
          simp at hsv
          simp [hsv]
        · intro av hav
          simp only [suppliedArgname] at hav
          simp [hav]
    | cons b r2 =>
      cases r2 with
      | nil =>
        simp only [slotArgs] at h
        by_cases hfk : forbidKwargs [kts, kan]
        · simp [hfk] at h
        · have hkan : kan = Option.none := by
            simp [forbidKwargs] at hfk
            exact Option.not_isSome_iff_eq_none.mp (by simp [hfk.2])
          by_cases hsrc : kfa.isSome || kin.isSome || ktg.isSome
          · simp only [hfk, Bool.false_eq_true, if_false, hsrc, if_true,
              Except.ok.injEq, Prod.mk.injEq] at h
            obtain ⟨h1, h2, h3, h4, h5⟩ := h
            subst h1 h2 h3 h4 h5
            have hsrc2 : (ktg.isSome || kfa.isSome || kin.isSome) = true := by
              rcases Bool.or_eq_true_iff.mp hsrc with h0 | h0
              · rcases Bool.or_eq_true_iff.mp h0 with h00 | h00 <;> simp [h00]
              · simp [h0]
            refine ⟨?_, rfl, rfl, ?_, ?_⟩
            · simp [suppliedTarget, hsrc2]
            · intro sv hsv
              simp only [suppliedSelector] at hsv
              simp at hsv
              simp [hsv]
            · intro av hav
              simp only [suppliedArgname, hsrc2] at hav
              simp at hav
              simp [hav]
          · simp only [hfk, Bool.false_eq_true, if_false, hsrc, Except.ok.injEq,
              Prod.mk.injEq] at h
            obtain ⟨h1, h2, h3, h4, h5⟩ := h
            subst h1 h2 h3 h4 h5
            have hsrc2 : (ktg.isSome || kfa.isSome || kin.isSome) = false := by
              simp at hsrc
              simp [hsrc]
            refine ⟨?_, rfl, rfl, ?_, ?_⟩
            · simp [suppliedTarget, hsrc2]
            · intro sv hsv
              simp only [suppliedSelector] at hsv
              simp at hsv
              simp [hsv]
            · intro av hav
              simp only [suppliedArgname, hsrc2, hkan] at hav
              simp at hav
      | cons t3 r3 =>
        cases r3 with
        | nil =>
          simp only [slotArgs] at h
          by_cases hfk : forbidKwargs [kts, kan, ktg]
          · simp [hfk] at h
          · simp only [hfk, Bool.false_eq_true, if_false, Except.ok.injEq,
              Prod.mk.injEq] at h
            obtain ⟨h1, h2, h3, h4, h5⟩ := h
            subst h1 h2 h3 h4 h5
            refine ⟨rfl, rfl, rfl, ?_, ?_⟩
            · intro sv hsv
              simp only [suppliedSelector] at hsv
              simp at hsv
              simp [hsv]
            · intro av hav
              simp only [suppliedArgname] at hav
              simp at hav
              simp [hav]
        | cons t4 r4 =>
          simp [slotArgs] at h

theorem dispatch_ok_slots (env : TyEnv) (c : BindCall) (ts an : BVal)
    (tgt fac inst : Option BVal) (ts' an' : BVal) (r : BindingRecord)
    (hs : slotArgs c = .ok (ts, an, tgt, fac, inst))
    (hd : dispatchArguments env c = .ok (ts', an', r)) :
    ts' = ts ∧ an' = an := by
  simp only [dispatchArguments, hs] at hd
  repeat' split at hd
  all_goals first
    | (simp only [Except.ok.injEq, Prod.mk.injEq] at hd
       exact ⟨hd.1.symm, hd.2.1.symm⟩)
    | simp at hd

theorem opt_eq_none_of_isSome_false {α : Type} (o : Option α) (h : o.isSome = false) :
    o = Option.none := by
  cases o with
  | none => rfl
  | some a => simp at h

/-- C8: a `bind` call that supplies zero or more than one of
target/factory/instance, an argname together with a predicate selector,
or extra keyword arguments together with a pre-built instance, raises
and leaves the registry exactly as it was (neither the exact map nor the
predicate list gains an entry). -/
theorem C8_bind_validation (env : TyEnv) (reg : Registry) (c : BindCall)
    (hcond : sourceCount c ≠ 1 ∨ predicateWithArgname c = true ∨
      instanceWithKwargs c = true) :
    ∃ e, fbBindS env reg c = (.error e, reg) := by
  cases hs : slotArgs c with
  | error e => exact ⟨e, by simp [fbBindS, dispatchArguments, hs]⟩
  | ok slots =>
    obtain ⟨ts, an, tgt, fac, inst⟩ := slots
    obtain ⟨htg, hfa, hin, hsel, harg⟩ := slotArgs_spec c ts an tgt fac inst hs
    subst htg
    subst hfa
    subst hin
    by_cases hgt : (if (suppliedTarget c).isSome then 1 else 0) +
        (if c.kwFactory.isSome then 1 else 0) +
        (if c.kwInstance.isSome then 1 else 0) > 1
    · exact ⟨.typeErr exactlyOneMsg, by simp [fbBindS, dispatchArguments, hs, hgt]⟩
    · rcases hcond with hA | hB | hC
      · simp only [sourceCount] at hA
        cases h1 : (suppliedTarget c).isSome <;> cases h2 : c.kwFactory.isSome <;>
          cases h3 : c.kwInstance.isSome <;>
          simp only [h1, h2, h3, if_true, if_false] at hA hgt <;> try omega
        have ht' := opt_eq_none_of_isSome_false (suppliedTarget c) h1
        have hf' := opt_eq_none_of_isSome_false c.kwFactory h2
        have hi' := opt_eq_none_of_isSome_false c.kwInstance h3
        exact ⟨.typeErr eitherOneMsg,
          by simp [fbBindS, dispatchArguments, hs, hgt, ht', hf', hi']⟩
      · simp only [predicateWithArgname, Bool.and_eq_true] at hB
        obtain ⟨hBs, hBa⟩ := hB
        cases hselv : suppliedSelector c with
        | none => rw [hselv] at hBs; simp at hBs
        | some sv =>
          rw [hselv] at hBs
          cases hargv : suppliedArgname c with
          | none => rw [hargv] at hBa; simp at hBa
          | some av =>
            rw [hargv] at hBa
            simp only [Bool.not_eq_true'] at hBa
            have hts : ts = sv := hsel sv hselv
            have han : an = av := harg av hargv
            cases hd : dispatchArguments env c with
            | error e => exact ⟨e, by simp [fbBindS, hd]⟩
            | ok tri =>
              obtain ⟨ts', an', r⟩ := tri
              obtain ⟨hts', han'⟩ := dispatch_ok_slots env c ts an _ _ _ ts' an' r hs hd
              cases sv with
              | funcV f =>
                exact ⟨.valueErr argnameNotAllowedMsg,
                  by simp [fbBindS, hd, addBinding, hts', han', hts, han, hBa]⟩
              | noneV => simp [isFunctionB] at hBs
              | str s0 => simp [isFunctionB] at hBs
              | clsV t => simp [isFunctionB] at hBs
              | instV v => simp [isFunctionB] at hBs
      · simp only [instanceWithKwargs, Bool.and_eq_true] at hC
        obtain ⟨hCe, hCd⟩ := hC
        simp only [Bool.not_eq_true'] at hCe
        rcases Bool.or_eq_true_iff.mp hCd with hInst | hTgt
        · cases hkt : suppliedTarget c with
          | some tv =>
            exfalso
            apply hgt
            simp only [hkt, Option.isSome_some, if_true, hInst]
            omega
          | none =>
            cases hkf : c.kwFactory with
            | some fv =>
              exfalso
              apply hgt
              simp only [hkt, hkf, Option.isSome_some, Option.isSome_none, if_true,
                if_false, hInst]
              omega
            | none =>
              cases hki : c.kwInstance with
              | none => rw [hki] at hInst; simp at hInst
              | some iv =>
                exact ⟨.valueErr cannotKwargsMsg,
                  by simp [fbBindS, dispatchArguments, hs, hgt, hkt, hkf, hki,
                    wrapInstance, hCe]⟩
        · cases hkt : suppliedTarget c with
          | none => rw [hkt] at hTgt; simp at hTgt
          | some tv =>
            rw [hkt] at hTgt
            simp only [Bool.not_eq_true'] at hTgt
            have h2 : c.kwFactory.isSome = false := by
              cases h2x : c.kwFactory.isSome with
              | false => rfl
              | true =>
                exfalso
                apply hgt
                simp only [hkt, Option.isSome_some, if_true, h2x]
                omega
            have h3 : c.kwInstance.isSome = false := by
              cases h3x : c.kwInstance.isSome with
              | false => rfl
              | true =>
                exfalso
                apply hgt
                simp only [hkt, Option.isSome_some, if_true, h3x]
                omega
            exact ⟨.valueErr cannotKwargsMsg,
              by simp [fbBindS, dispatchArguments, hs, hkt, h2, h3, wrapGenericTarget,
                hTgt, wrapInstance, hCe]⟩

def c8call : BindCall :=
  { args := [.clsV (Ty.c 1)], kwTypeSelector := Option.none, kwArgname := Option.none,
    kwTarget := Option.none, kwFactory := Option.none, kwInstance := Option.none,
    extra := [] }

theorem C8_bind_validation_witness :
    sourceCount c8call = 0 ∧
    (∃ e, fbBindS env0 reg0 c8call = (.error e, reg0)) :=
  ⟨rfl, C8_bind_validation env0 reg0 c8call (Or.inl (by decide))⟩

/-- C10: `DIBox.bind` with a concrete class selector and a non-callable
target registers the value directly in the instance store — the registry
is untouched, the synchronous `resolve` returns it with no prior
`provide`, and container close runs its close capability like any
container-created instance (it is the newest entry, so it is shut down
first). -/
theorem C10_instance_binding (env : TyEnv) (d : DBox) (t : Ty) (v : PyVal)
    (N : Option PName) (hv : v ≠ PyVal.none)
    (hk : dictGet d.st.items (some t, N) = Option.none) :
    ∃ d', diboxBind env d (.clsV t) (.instV v) N [] = .ok d' ∧
      d'.reg = d.reg ∧
      d'.st.items = d.st.items ++ [((some t, N), v)] ∧
      resolveF d'.st (.single t) N = .ok v ∧
      (closeStore d'.st).trace =
        d.st.trace ++ ((claimCloseEvent v).toList ++
          (d.st.items.map Prod.snd).reverse.filterMap claimCloseEvent) := by
  refine ⟨{ d with st := registerInstance d.st (some t, N) v }, rfl, rfl, ?_, ?_, ?_⟩
  · simp [registerInstance, dictSet_eq_append d.st.items (some t, N) v hk]
  · simp [resolveF, getInstance, findMatchQ_single, findMatch1, itemsGet, registerInstance,
      dictGet_dictSet_self, hv]
  · simp only [closeStore, closeLoop_eq, registerInstance,
      dictSet_eq_append d.st.items (some t, N) v hk]
    simp [List.filterMap_append]
    cases hce : claimCloseEvent v <;>
      simp [List.filterMap_cons, hce, List.filterMap_reverse, List.filterMap_map]

def capsClose : Caps := { caps0 with hasClose := true }

def d0 : DBox := { reg := reg0, st := sEmpty }

theorem C10_instance_binding_witness :
    (PyVal.obj ⟨5, capsClose⟩ ≠ PyVal.none) ∧
    dictGet d0.st.items (some (Ty.c 4), some "db") = Option.none ∧
    (∃ d', diboxBind env0 d0 (.clsV (Ty.c 4)) (.instV (.obj ⟨5, capsClose⟩)) (some "db") [] =
        .ok d' ∧
      d'.reg = d0.reg ∧
      d'.st.items = d0.st.items ++ [((some (Ty.c 4), some "db"), .obj ⟨5, capsClose⟩)] ∧
      resolveF d'.st (.single (Ty.c 4)) (some "db") = .ok (.obj ⟨5, capsClose⟩) ∧
      (closeStore d'.st).trace = d0.st.trace ++
        ((claimCloseEvent (.obj ⟨5, capsClose⟩)).toList ++
          (d0.st.items.map Prod.snd).reverse.filterMap claimCloseEvent)) :=
  ⟨by decide, rfl,
   C10_instance_binding env0 d0 (Ty.c 4) (.obj ⟨5, capsClose⟩) (some "db") (by decide) rfl⟩
